import Mathlib

/-!
Shallow embedding of `lib/git/objects/submodule.py` (classes `Submodule` and
`RootModule`): the submodule record data model, the checkout engine
(`Submodule.update`), the removal engine (`Submodule.remove`), the move engine
(`Submodule.move`), the cached-attribute probe (`Submodule.exists`) and the
reconciliation engine (`RootModule.update`).

External collaborators (the git object store, remotes, the index, the
filesystem) are modelled as explicit inputs: lists of remotes with their
refs, boolean facts about the filesystem, and oracle functions for the
commit-containment (`git cherry`) queries.  Exceptions are modelled as
`Option Err` results; side effects are modelled as explicit action logs so
that an operation that raises still reports the actions it performed before
raising, exactly as the Python code leaves them applied.
-/

namespace GitSubmodule

/-- Exception classes raised by the code under consideration. -/
inductive Err where
  | valueError
  | invalidGitRepo
  | assertionError
  | gitCommandError (status : Nat)
  | indexError
  | osError
  | configError
deriving DecidableEq, Repr

/-- A submodule record: `_name`, `path`, `_url`, the name of `_branch`, and
`binsha` (the pinned commit, modelled as a `Nat`).  Mirrors the fields of
class `Submodule`. -/
structure Submodule where
  name : String
  path : String
  url : String
  branchName : String
  binsha : Nat
deriving DecidableEq, Repr

/-- `Submodule.k_head_default = 'master'`. -/
def k_head_default : String := "master"

/-- `RootModule.__init__` constructs the root with
`branch = mkhead(repo, self.k_head_default)`, so `self.branch.name` inside
`RootModule.update` is always this constant. -/
def rootModuleBranchName : String := k_head_default

/-- `Submodule.__eq__`: `return self._name == other._name`. -/
def Submodule.beq (a b : Submodule) : Bool := a.name == b.name

/-- `Submodule.__ne__`: `return not (self == other)`. -/
def Submodule.bne (a b : Submodule) : Bool := !(Submodule.beq a b)

/-- `Submodule.__hash__`: `return hash(self._name)` - a function of the name
alone. -/
def Submodule.hashVal (a : Submodule) : UInt64 := a.name.hash

/-- A remote-tracking ref (`RemoteReference`): the owning remote's name, the
branch part (`remote_head`), the tip commit (`rref.commit`) and the commits
yielded by `rref.commit.traverse()` (the strict ancestors of the tip). -/
structure RemoteRef where
  remoteName : String
  headName : String
  tipCommit : Nat
  history : List Nat
deriving DecidableEq, Repr

/-- A configured remote of a module repository. -/
structure Remote where
  name : String
  url : String
  refs : List RemoteRef
deriving DecidableEq, Repr

/-- Qualified name of a remote ref, e.g. `origin/master`; used to key the
`git cherry` oracle. -/
def refQualName (r : RemoteRef) : String := r.remoteName ++ "/" ++ r.headName

/-- `remote.refs[branch_name]`: look a ref up by its branch part; `none`
models the `IndexError` raised on a missing key. -/
def findRefByHead (refs : List RemoteRef) (name : String) : Option RemoteRef :=
  refs.find? (fun r => r.headName == name)

/-- `find_first_remote_branch(remotes, branch)`: the first remote carrying a
ref whose branch part matches; `none` models the raised
`InvalidGitRepositoryError`. -/
def find_first_remote_branch (remotes : List Remote) (branchName : String) :
    Option RemoteRef :=
  match remotes with
  | [] => none
  | r :: rest =>
    match findRefByHead r.refs branchName with
    | some rref => some rref
    | none => find_first_remote_branch rest branchName

/-! ### Checkout engine: `Submodule.update` -/

/-- State of the module repository's HEAD when `Submodule.update` computes the
commit to check out: the current HEAD commit, whether HEAD is detached, and
the tip of `mrepo.head.ref.tracking_branch()` (`none` when no tracking branch
is configured). -/
structure ModuleRepo where
  headCommit : Nat
  headDetached : Bool
  trackingTip : Option Nat
deriving DecidableEq, Repr

/-- Observable actions of the checkout phase of `Submodule.update`. -/
inductive CkAct where
  | warnNoTracking
  | warnDetached
  | checkoutDetached (commit : Nat)
  | resetBranch (commit : Nat) (index workingTree : Bool)
deriving DecidableEq, Repr

/-- The commit `Submodule.update` ends up targeting: under
`to_latest_revision` with an attached HEAD and a configured tracking branch it
is the tracking branch's tip, otherwise it falls back to the pinned
`binsha`. -/
def resolveTarget (toLatest : Bool) (binsha : Nat) (m : ModuleRepo) : Nat :=
  if toLatest && !m.headDetached then
    match m.trackingTip with
    | some t => t
    | none => binsha
  else binsha

/-- The `DETERMINE SHAS TO CHECKOUT` and `update the working tree` sections of
`Submodule.update` (lines 425-456): resolve the target commit, then, when the
module HEAD commit differs from it, either `git checkout <hexsha>` (detached
HEAD) or `head.reset(hexsha, index=True, working_tree=True)` (attached). -/
def smUpdateCheckout (toLatest : Bool) (binsha0 : Nat) (m : ModuleRepo) :
    List CkAct :=
  let step : List CkAct × Nat :=
    if toLatest then
      if !m.headDetached then
        match m.trackingTip with
        | some t => ([], t)
        | none => ([CkAct.warnNoTracking], binsha0)
      else ([CkAct.warnDetached], binsha0)
    else ([], binsha0)
  let warns := step.1
  let binsha := step.2
  if m.headCommit != binsha then
    if m.headDetached then warns ++ [CkAct.checkoutDetached binsha]
    else warns ++ [CkAct.resetBranch binsha true true]
  else warns

/-- Pre-existing state of the module directory when `Submodule.update` has to
clone. -/
inductive DirState where
  | absent
  | emptyDir
  | nonEmptyDir
deriving DecidableEq, Repr

/-- Observable actions of the repository-presence phase of
`Submodule.update`. -/
inductive EnsureAct where
  | fetchRemote (name : String)
  | rmdirEmpty
  | clone (url : String) (noCheckout : Bool)
  | setTrackingInit (branch upstreamQual : String)
  | writeBranchRefNull (branch : String)
  | attachHead (branch : String)
deriving DecidableEq, Repr

/-- The `ASSURE REPO IS PRESENT AND UPTODATE` section of `Submodule.update`
(lines 362-422).  When the module is valid every remote is fetched.  When it
is not and `init` holds: an existing module directory is `os.rmdir`ed if
empty (`OSError` re-raised as fatal when non-empty), the repository is cloned
with `n=True` (no checkout), and a local tracking branch is set up; the
`except IndexError` handler does not catch the `InvalidGitRepositoryError` of
`find_first_remote_branch`, so a missing remote branch propagates. -/
def smUpdateEnsure (bare moduleValid init : Bool) (modRemoteNames : List String)
    (dir : DirState) (url branchName : String) (branchIsValid : Bool)
    (cloneRemotes : List Remote) : List EnsureAct × Option Err :=
  if bare then ([], none)
  else if moduleValid then (modRemoteNames.map EnsureAct.fetchRemote, none)
  else if !init then ([], none)
  else
    let pre : List EnsureAct × Option Err :=
      match dir with
      | DirState.absent => ([], none)
      | DirState.emptyDir => ([EnsureAct.rmdirEmpty], none)
      | DirState.nonEmptyDir => ([], some Err.osError)
    match pre.2 with
    | some e => (pre.1, some e)
    | none =>
      let acts := pre.1 ++ [EnsureAct.clone url true]
      match find_first_remote_branch cloneRemotes branchName with
      | none => (acts, some Err.invalidGitRepo)
      | some rref =>
        let acts := acts ++
          (if !branchIsValid then
            [EnsureAct.setTrackingInit branchName (refQualName rref)]
          else [])
        (acts ++ [EnsureAct.writeBranchRefNull branchName,
                  EnsureAct.attachHead branchName], none)

/-! ### Move engine: `Submodule.move` -/

/-- Physical and index actions performed by `Submodule.move`. -/
inductive MvAct where
  | removeDestLink
  | rmdirDest
  | renameModule (fromPath toPath : String)
  | renameBack (fromPath toPath : String)
  | updateIndexEntry (fromPath toPath : String)
  | writeConfigPath (p : String)
deriving DecidableEq, Repr

/-- Facts about the filesystem, the index and the config writer consulted by
`Submodule.move`: is the destination a regular file, does it exist, is it a
non-empty directory, is it a symlink; does the current module directory
exist; does the index already hold an entry at the destination / at the
current path; does the configuration write raise. -/
structure MoveEnv where
  destIsFile : Bool
  destExists : Bool
  destNonEmpty : Bool
  destIsLink : Bool
  curExists : Bool
  indexHasDestEntry : Bool
  indexHasCurEntry : Bool
  configWriteFails : Bool
deriving DecidableEq, Repr

/-- Result of `Submodule.move`: the action log, the physical location of the
module directory afterwards (`none` when it never existed), the record's
`path` afterwards, and the raised exception, if any. -/
structure MoveResult where
  acts : List MvAct
  physPath : Option String
  recordPath : String
  err : Option Err
deriving DecidableEq, Repr

/-- `module_path.endswith('/')` stripping performed by `Submodule.move`:
when the last character is a slash, the string without it is used. -/
def stripTrailingSlash (s : String) : String :=
  if s.data.getLast? == some '/' then String.mk s.data.dropLast else s

/-- Intermediate result of the `try` block of `Submodule.move`. -/
structure TryResult where
  acts : List MvAct
  err : Option Err
  recordPath : String
deriving DecidableEq, Repr

/-- The `try` block of `Submodule.move` (lines 544-561): when `configuration`
holds, rewrite the index entry (`KeyError` re-raised as
`InvalidGitRepositoryError` when the entry at the current path is missing)
and then write the new `path` value through the config writer, updating
`self.path` only after a successful write. -/
def moveTryBody (origPath module_path : String) (configuration : Bool)
    (env : MoveEnv) : TryResult :=
  if configuration then
    if !env.indexHasCurEntry then
      ⟨[], some Err.invalidGitRepo, origPath⟩
    else if env.configWriteFails then
      ⟨[MvAct.updateIndexEntry origPath module_path], some Err.configError,
        origPath⟩
    else
      ⟨[MvAct.updateIndexEntry origPath module_path,
        MvAct.writeConfigPath module_path], none, module_path⟩
  else ⟨[], none, origPath⟩

/-- `Submodule.move` (lines 469-569): validate the flags and the destination,
clear an existing empty destination, physically `os.renames` the module
directory, then run the index/config update; if that update raises after the
physical rename succeeded, the rename is undone (`os.renames(dest_path,
cur_path)`) before the exception propagates. -/
def smMove (origPath modulePathRaw : String) (configuration module : Bool)
    (env : MoveEnv) : MoveResult :=
  let phys0 : Option String := if env.curExists then some origPath else none
  if !module && !configuration then
    ⟨[], phys0, origPath, some Err.valueError⟩
  else
    let module_path := stripTrailingSlash modulePathRaw
    if module_path == origPath then ⟨[], phys0, origPath, none⟩
    else if env.destIsFile then ⟨[], phys0, origPath, some Err.valueError⟩
    else if configuration && env.indexHasDestEntry then
      ⟨[], phys0, origPath, some Err.valueError⟩
    else if module && env.destExists && env.destNonEmpty then
      ⟨[], phys0, origPath, some Err.valueError⟩
    else
      let acts0 : List MvAct :=
        if module && env.destExists then
          [if env.destIsLink then MvAct.removeDestLink else MvAct.rmdirDest]
        else []
      let renamed := module && env.curExists
      let acts1 := acts0 ++
        (if renamed then [MvAct.renameModule origPath module_path] else [])
      let phys1 := if renamed then some module_path else phys0
      let body := moveTryBody origPath module_path configuration env
      match body.err with
      | some e =>
        if renamed then
          ⟨acts1 ++ body.acts ++ [MvAct.renameBack module_path origPath],
            some origPath, origPath, some e⟩
        else ⟨acts1 ++ body.acts, phys1, origPath, some e⟩
      | none => ⟨acts1 ++ body.acts, phys1, body.recordPath, none⟩

/-! ### Removal engine: `Submodule.remove` -/

/-- Mutations of the filesystem, the index and the configuration performed by
`Submodule.remove`. -/
inductive RemMut where
  | unlinkModule
  | rmtreeForce
  | rmtreeModule
  | deleteIndexEntry
  | writeIndex
  | removeRepoConfigSection
  | removeModulesSection
deriving DecidableEq, Repr

/-- Facts consulted by `Submodule.remove` about one submodule's module:
whether `module_exists()`, whether the working tree `is_dirty`
(untracked files included), the `len(mod.git.cherry(rref))` value for every
ref of every configured remote, and the nature of the module path. -/
structure RemoveEnv where
  moduleExistsB : Bool
  isDirty : Bool
  remoteCherries : List (List Nat)
  pathIsLink : Bool
  pathIsDir : Bool
  pathExists : Bool
  indexHasEntry : Bool
deriving DecidableEq, Repr

/-- A submodule together with its child submodules, as walked by
`Submodule.remove` through `self.children()`. -/
inductive SMTree where
  | node (env : RemoveEnv) (children : List SMTree)

/-- The per-remote loop body of `Submodule.remove` (lines 632-642): the
accumulator is overwritten, not accumulated - after the loop
`num_branches_with_new_commits` holds the boolean of the last ref only
(`0` for a remote without refs) and is compared against `len(rrefs)`. -/
def checkRemoteRaises (cherries : List Nat) : Bool :=
  let num := cherries.foldl (fun _ c => if c != 0 then 1 else 0) 0
  num == cherries.length

/-- The remotes loop of `Submodule.remove`: raise
`InvalidGitRepositoryError` at the first remote whose check trips. -/
def checkRemotes (rs : List (List Nat)) : Option Err :=
  if rs.any checkRemoteRaises then some Err.invalidGitRepo else none

/-- The force branch of `Submodule.remove` (lines 603-619): pick the deletion
method (`os.remove` for a symlink, `shutil.rmtree` for a directory,
`AssertionError` for any other existing path), then outside dry-run assert a
method was found and apply it. -/
def forcePhase (env : RemoveEnv) (dryRun : Bool) : List RemMut × Option Err :=
  if env.pathIsLink then
    (if dryRun then [] else [RemMut.unlinkModule], none)
  else if env.pathIsDir then
    (if dryRun then [] else [RemMut.rmtreeForce], none)
  else if env.pathExists then ([], some Err.assertionError)
  else if dryRun then ([], none)
  else ([], some Err.assertionError)

/-- The non-force precondition checks of `Submodule.remove`: a dirty working
tree raises, then the (defective) remotes containment check runs. -/
def nonForceChecks (env : RemoveEnv) : Option Err :=
  if env.isDirty then some Err.invalidGitRepo
  else checkRemotes env.remoteCherries

/-- The `DELETE CONFIGURATION` section of `Submodule.remove` (lines 656-672),
run after the module phase: outside dry-run, and only when `configuration`
was requested, the index entry is deleted (a missing entry is ignored), the
index is written, and both config sections are removed. -/
def configAssemble (env : RemoveEnv) (configuration dryRun : Bool)
    (modPhase : List RemMut × Option Err) : List RemMut × Option Err :=
  match modPhase.2 with
  | some e => (modPhase.1, some e)
  | none =>
    if configuration && !dryRun then
      (modPhase.1 ++
        (if env.indexHasEntry then [RemMut.deleteIndexEntry] else []) ++
        [RemMut.writeIndex, RemMut.removeRepoConfigSection,
         RemMut.removeModulesSection], none)
    else (modPhase.1, none)

mutual

/-- `Submodule.remove` (lines 572-674) as a state transition: returns the
mutations performed (in order) and the exception raised, if any.  Children
are always removed with `module=True, force=False, configuration=False` and
the caller's `dry_run`. -/
def smRemove : SMTree → Bool → Bool → Bool → Bool → List RemMut × Option Err
  | SMTree.node env children, module, force, configuration, dryRun =>
    if !module && !configuration then ([], some Err.valueError)
    else
      configAssemble env configuration dryRun
        (if module && env.moduleExistsB then
          if force then forcePhase env dryRun
          else
            match nonForceChecks env with
            | some e => ([], some e)
            | none =>
              let cr := removeChildren children dryRun
              match cr.2 with
              | some e => (cr.1, some e)
              | none =>
                (cr.1 ++ (if dryRun then [] else [RemMut.rmtreeModule]), none)
        else ([], none))

/-- The `for sm in self.children()` loop of `Submodule.remove`: children are
processed in order and the first exception aborts the loop, keeping the
mutations already performed. -/
def removeChildren : List SMTree → Bool → List RemMut × Option Err
  | [], _ => ([], none)
  | c :: cs, dryRun =>
    let r := smRemove c true false false dryRun
    match r.2 with
    | some e => (r.1, some e)
    | none =>
      let rest := removeChildren cs dryRun
      (r.1 ++ rest.1, rest.2)

end

/-- Structural well-formedness of one `RemoveEnv`: a valid module repository
lives at an existing path that is a symlink or a directory. -/
def envWf (e : RemoveEnv) : Bool :=
  !e.moduleExistsB || (e.pathIsLink || e.pathIsDir)

mutual

/-- Well-formedness of a whole submodule tree. -/
def treeWf : SMTree → Bool
  | SMTree.node env children => envWf env && forestWf children

/-- Well-formedness of a list of submodule trees. -/
def forestWf : List SMTree → Bool
  | [] => true
  | c :: cs => treeWf c && forestWf cs

end

/-! ### Reconcile engine: `RootModule.update` (per-pair steps) -/

/-- Remote and branch operations performed by `RootModule.update` on one
common submodule pair. -/
inductive Op where
  | moveModule (newPath : String)
  | createRemote (name url : String)
  | fetchRemote (name : String)
  | deleteRemote (name : String)
  | renameRemote (oldName newName : String)
  | warnBinshaReset (newSha : Nat)
  | createBranch (name : String)
  | reuseBranch (name : String)
  | setTracking (localName upstreamQual : String)
  | deleteBranch (name : String)
deriving DecidableEq, Repr

/-- Result of the URL-change step: operations, exception and the (possibly
rewritten) pinned `binsha` of the current record. -/
structure UrlStepResult where
  ops : List Op
  err : Option Err
  binsha : Nat
deriving DecidableEq, Repr

/-- The URL-change block of `RootModule.update` (lines 990-1073), entered when
`sm.url != psm.url` and the module exists.  `selfBranchName` is
`self.branch.name` of the `RootModule` instance executing `update` (always
`rootModuleBranchName`); `rmts` is `smm.remotes`; `newRefs` is the ref set
that fetching the freshly created `__new_origin__` remote yields.  After the
rename, `smr.refs[self.branch.name]` is looked up - a missing key raises
`IndexError` - and `sm.binsha` is searched among the traversed ancestors of
that ref's tip, being reset to the tip with a warning when absent. -/
def urlChangeStep (selfBranchName : String) (sm psm : Submodule)
    (rmts : List Remote) (newRefs : List RemoteRef) : UrlStepResult :=
  let nn := "__new_origin__"
  if (rmts.filter (fun r => r.url == sm.url)).length == 0 then
    if (rmts.filter (fun r => r.name == nn)).length != 0 then
      ⟨[], some Err.assertionError, sm.binsha⟩
    else
      let ops0 := [Op.createRemote nn sm.url, Op.fetchRemote nn]
      if (newRefs.filter (fun r => r.headName == sm.branchName)).length == 0
      then ⟨ops0, some Err.valueError, sm.binsha⟩
      else
        let rmtForDeletion : Option Remote :=
          match rmts.find? (fun r => r.url == psm.url) with
          | some r => some r
          | none => if rmts.length == 1 then rmts.head? else none
        match rmtForDeletion with
        | none => ⟨ops0, some Err.invalidGitRepo, sm.binsha⟩
        | some rmt =>
          let origName := rmt.name
          let ops1 := ops0 ++
            [Op.deleteRemote origName, Op.renameRemote nn origName]
          match findRefByHead newRefs selfBranchName with
          | none => ⟨ops1, some Err.indexError, sm.binsha⟩
          | some rref =>
            if rref.history.contains sm.binsha then ⟨ops1, none, sm.binsha⟩
            else
              ⟨ops1 ++ [Op.warnBinshaReset rref.tipCommit], none,
                rref.tipCommit⟩
  else ⟨[], none, sm.binsha⟩

/-- The branch-change block of `RootModule.update` (lines 1076-1109), entered
when `sm.branch != psm.branch` and the module exists.  `createStatus` is the
outcome of `git.Head.create` (`none` = success, `some s` = `GitCommandError`
with that status; only status 128 - branch already exists - leads to reuse).
The upstream is the first remote branch matching the new name
(`InvalidGitRepositoryError` when none).  The old local branch is deleted
when `git cherry` of it against the first remote branch matching the OLD
name is empty; a failure to find that remote branch is silently ignored. -/
def branchChangeStep (smBranchName psmBranchName : String)
    (remotes : List Remote) (createStatus : Option Nat)
    (cherry : String → String → Nat) : List Op × Option Err :=
  let createPart : List Op × Option Err :=
    match createStatus with
    | none => ([Op.createBranch smBranchName], none)
    | some s =>
      if s != 128 then ([], some (Err.gitCommandError s))
      else ([Op.reuseBranch smBranchName], none)
  match createPart.2 with
  | some e => (createPart.1, some e)
  | none =>
    match find_first_remote_branch remotes smBranchName with
    | none => (createPart.1, some Err.invalidGitRepo)
    | some rref =>
      let ops1 := createPart.1 ++
        [Op.setTracking smBranchName (refQualName rref)]
      match find_first_remote_branch remotes psmBranchName with
      | none => (ops1, none)
      | some tbr =>
        if cherry (refQualName tbr) psmBranchName == 0 then
          (ops1 ++ [Op.deleteBranch psmBranchName], none)
        else (ops1, none)

/-- Result of reconciling one common submodule pair. -/
structure PairResult where
  ops : List Op
  err : Option Err
  binsha : Nat
deriving DecidableEq, Repr

/-- One iteration of the `for csm in (spsms & ssms)` loop of
`RootModule.update` (lines 979-1110): the path-change step (move the module
when paths differ and the previous module exists), then - when the current
module exists - the URL-change step (when urls differ) and the branch-change
step (when branch names differ).  `rmts`/`newRefs` feed the URL step;
`rmtsAtBranchStep` is `smm.remotes` as re-read by the branch step. -/
def reconcilePair (psm sm : Submodule) (psmModuleExists smModuleExists : Bool)
    (rmts : List Remote) (newRefs : List RemoteRef)
    (rmtsAtBranchStep : List Remote) (createStatus : Option Nat)
    (cherry : String → String → Nat) : PairResult :=
  let moveOps : List Op :=
    if sm.path != psm.path && psmModuleExists then [Op.moveModule sm.path]
    else []
  if smModuleExists then
    let urlRes : UrlStepResult :=
      if sm.url != psm.url then
        urlChangeStep rootModuleBranchName sm psm rmts newRefs
      else ⟨[], none, sm.binsha⟩
    match urlRes.err with
    | some e => ⟨moveOps ++ urlRes.ops, some e, urlRes.binsha⟩
    | none =>
      if sm.branchName != psm.branchName then
        let br := branchChangeStep sm.branchName psm.branchName
          rmtsAtBranchStep createStatus cherry
        ⟨moveOps ++ urlRes.ops ++ br.1, br.2, urlRes.binsha⟩
      else ⟨moveOps ++ urlRes.ops, none, urlRes.binsha⟩
  else ⟨moveOps, none, sm.binsha⟩

/-! ### Cached-attribute probe: `Submodule.exists`

The lazy per-attribute cache (`path`, `_url`, `_branch` resolved from the
configuration on first access) lives in the `LazyMixin`/`IndexObject` base
classes, which are outside this file.  Modelled from the spec: lazy,
per-attribute cached resolution - attributes fetched from config on first
access and cached; an attribute access on a cleared cache triggers
`_set_cache_`, which reads the configuration and assigns all three
attributes in order, so a failure part-way leaves the earlier assignments in
place; `hasattr` triggers the same resolution and swallows its exceptions. -/

/-- The cached attribute triple of a `Submodule` instance: `path`, `_url`,
`_branch` (`none` = attribute not set). -/
structure Cache where
  path : Option String
  url : Option String
  branch : Option String
deriving DecidableEq, Repr

/-- Outcome of the configuration reads performed by `_set_cache_`: whether
`config_reader()` itself succeeds, and the values (or failure) of
`get_value('path')`, `get_value('url')` and the branch option read. -/
structure CfgRes where
  readerOk : Bool
  pathVal : Option String
  urlVal : Option String
  branchVal : Option String
deriving DecidableEq, Repr

/-- `Submodule._set_cache_` for the attribute group `('path', '_url',
'_branch')` (lines 153-159): obtain a reader, then assign `self.path`,
`self._url`, `self._branch` in order; the `Bool` is false when an exception
is raised, and the returned cache keeps the assignments made before the
failure. -/
def set_cache_triple (res : CfgRes) (c : Cache) : Cache × Bool :=
  if res.readerOk = false then (c, false)
  else
    match res.pathVal with
    | none => (c, false)
    | some p =>
      match res.urlVal with
      | none => ({ c with path := some p }, false)
      | some u =>
        match res.branchVal with
        | none => ({ c with path := some p, url := some u }, false)
        | some b => (⟨some p, some u, some b⟩, true)

/-- `hasattr(self, 'path')` under the lazy protocol: a cached attribute
reports true; an uncached one triggers `_set_cache_`, whose failure is
swallowed (reporting false) but whose partial assignments persist. -/
def hasattrLazyPath (res : CfgRes) (c : Cache) : Cache × Bool :=
  match c.path with
  | some _ => (c, true)
  | none => set_cache_triple res c

/-- `hasattr(self, '_url')` under the lazy protocol. -/
def hasattrLazyUrl (res : CfgRes) (c : Cache) : Cache × Bool :=
  match c.url with
  | some _ => (c, true)
  | none => set_cache_triple res c

/-- `hasattr(self, '_branch')` under the lazy protocol. -/
def hasattrLazyBranch (res : CfgRes) (c : Cache) : Cache × Bool :=
  match c.branch with
  | some _ => (c, true)
  | none => set_cache_triple res c

/-- `Submodule.exists` (lines 762-789): save the values of the cached
attributes that `hasattr` reports (in the order `path`, `_url`, `_branch`),
clear the cache, probe `self.path` (any exception yields `False`), and in the
`finally` clause restore exactly the attributes that were saved - attributes
not saved keep whatever the probe left behind. -/
def smExists (res : CfgRes) (c0 : Cache) : Bool × Cache :=
  let s1 := hasattrLazyPath res c0
  let locPath : Option String := if s1.2 then s1.1.path else none
  let s2 := hasattrLazyUrl res s1.1
  let locUrl : Option String := if s2.2 then s2.1.url else none
  let s3 := hasattrLazyBranch res s2.1
  let locBranch : Option String := if s3.2 then s3.1.branch else none
  let cleared : Cache := ⟨none, none, none⟩
  let t := set_cache_triple res cleared
  let final : Cache :=
    ⟨(match locPath with | some v => some v | none => t.1.path),
     (match locUrl with | some v => some v | none => t.1.url),
     (match locBranch with | some v => some v | none => t.1.branch)⟩
  (t.2, final)

/-! ### Concrete instances used in the theorems -/

/-- URL-change scenario, current record: url moved to `u2`, tracking branch
`topic`, pinned commit 5. -/
def c1Sm : Submodule := ⟨"A", "libA", "u2", "topic", 5⟩

/-- URL-change scenario, previous record: url `u1`. -/
def c1Psm : Submodule := ⟨"A", "libA", "u1", "topic", 5⟩

/-- URL-change scenario: the module's sole remote `origin` still points at
`u1`. -/
def c1Rmts : List Remote :=
  [⟨"origin", "u1", [⟨"origin", "topic", 3, [2, 1]⟩]⟩]

/-- URL-change scenario: fetching the new remote yields only a `topic` ref
(tip 9, ancestors 8 and 7) - no `master` ref. -/
def c1NewRefs : List RemoteRef := [⟨"__new_origin__", "topic", 9, [8, 7]⟩]

/-- Removal scenario: a clean module whose one remote has two refs, each of
which lacks some local commit (both cherry checks non-empty). -/
def c2Env : RemoveEnv := ⟨true, false, [[1, 1]], false, true, true, true⟩

/-- The removal scenario submodule, with no children. -/
def c2Tree : SMTree := SMTree.node c2Env []

/-- Branch-change scenario containment oracle: the old local branch has one
commit missing from its remote branch `origin/old`, and no commit missing
from anything else (in particular none missing from the new local branch). -/
def cherryCex (upstream head : String) : Nat :=
  if upstream == "origin/old" && head == "old" then 1 else 0

/-- Branch-change scenario: remote `origin` carries refs for both the new
branch `new` and the old branch `old`. -/
def c3Remotes : List Remote :=
  [⟨"origin", "u", [⟨"origin", "new", 10, [9]⟩, ⟨"origin", "old", 20, [19]⟩]⟩]

/-- A containment oracle reporting no unmerged commits anywhere. -/
def cherryZero : String → String → Nat := fun _ _ => 0

/-- A well-formed dirty submodule with no children, used to witness the
dry-run theorem. -/
def c9Env : RemoveEnv := ⟨true, true, [[0]], false, true, true, true⟩

/-- The dry-run witness submodule tree. -/
def c9Tree : SMTree := SMTree.node c9Env []

/-- Configuration reads that all succeed. -/
def resAllOk : CfgRes := ⟨true, some "p", some "u", some "m"⟩

/-- An instance with no cached attributes. -/
def emptyCache : Cache := ⟨none, none, none⟩

/-- An instance with all three attributes cached. -/
def fullCache : Cache := ⟨some "p0", some "u0", some "b0"⟩

/-! ## Theorems -/

/-- C5: for every pair of submodule records, equality holds iff their names
are equal, regardless of path, url, branch or sha; inequality is the exact
negation, and two records with equal names have equal hashes. -/
theorem c5_eq_by_name (a b : Submodule) :
    (Submodule.beq a b = true ↔ a.name = b.name)
    ∧ (Submodule.bne a b = !(Submodule.beq a b))
    ∧ (a.name = b.name → Submodule.hashVal a = Submodule.hashVal b) := by
  refine ⟨?_, rfl, ?_⟩
  · simp [Submodule.beq]
  · intro h
    simp [Submodule.hashVal, h]

/-- Witness for C5 at two records sharing only the name. -/
theorem c5_witness :
    Submodule.hashVal ⟨"A", "p", "u", "b", 7⟩ =
      Submodule.hashVal ⟨"A", "q", "v", "c", 9⟩ :=
  (c5_eq_by_name ⟨"A", "p", "u", "b", 7⟩ ⟨"A", "q", "v", "c", 9⟩).2.2 rfl

/-- C6: in a non-bare checkout update, once the target commit is resolved:
if the module HEAD commit equals the target nothing is checked out or reset;
otherwise a detached HEAD gets a direct checkout of the target, and an
attached HEAD gets its branch reset to the target with both index and
working tree reset. -/
theorem c6_checkout_decision (toLatest : Bool) (b0 : Nat) (m : ModuleRepo) :
    (m.headCommit = resolveTarget toLatest b0 m →
      (∀ c, CkAct.checkoutDetached c ∉ smUpdateCheckout toLatest b0 m)
      ∧ (∀ c i w, CkAct.resetBranch c i w ∉ smUpdateCheckout toLatest b0 m))
    ∧ (m.headCommit ≠ resolveTarget toLatest b0 m → m.headDetached = true →
      CkAct.checkoutDetached (resolveTarget toLatest b0 m) ∈
          smUpdateCheckout toLatest b0 m
      ∧ ∀ c i w, CkAct.resetBranch c i w ∉ smUpdateCheckout toLatest b0 m)
    ∧ (m.headCommit ≠ resolveTarget toLatest b0 m → m.headDetached = false →
      CkAct.resetBranch (resolveTarget toLatest b0 m) true true ∈
          smUpdateCheckout toLatest b0 m
      ∧ ∀ c, CkAct.checkoutDetached c ∉ smUpdateCheckout toLatest b0 m) := by
  obtain ⟨hc, hd, ht⟩ := m
  cases toLatest <;> cases hd <;> cases ht <;>
    simp only [smUpdateCheckout, resolveTarget] <;>
    refine ⟨?_, ?_, ?_⟩ <;>
    intro h <;>
    simp_all

/-- Witness for C6: attached HEAD at commit 5, target 7, yields a full
reset. -/
theorem c6_witness :
    CkAct.resetBranch 7 true true ∈ smUpdateCheckout false 7 ⟨5, false, none⟩ :=
  ((c6_checkout_decision false 7 ⟨5, false, none⟩).2.2 (by decide) rfl).1

/-- C8: when update must clone a not-yet-present module with init enabled, a
pre-existing empty directory is removed before cloning, a pre-existing
non-empty directory is a fatal error and nothing is cloned, and the clone is
performed without checkout. -/
theorem c8_init_clone (modR : List String) (dir : DirState) (url bn : String)
    (bv : Bool) (cr : List Remote) :
    (dir = DirState.nonEmptyDir →
      smUpdateEnsure false false true modR dir url bn bv cr =
        ([], some Err.osError))
    ∧ (dir = DirState.emptyDir →
      (smUpdateEnsure false false true modR dir url bn bv cr).1.take 2 =
        [EnsureAct.rmdirEmpty, EnsureAct.clone url true])
    ∧ (dir = DirState.absent →
      (smUpdateEnsure false false true modR dir url bn bv cr).1.take 1 =
        [EnsureAct.clone url true])
    ∧ (∀ u b, EnsureAct.clone u b ∈
        (smUpdateEnsure false false true modR dir url bn bv cr).1 →
        b = true) := by
  cases dir <;>
    cases hf : find_first_remote_branch cr bn <;>
    cases bv <;>
    simp_all [smUpdateEnsure]

/-- Witness for C8 at an empty pre-existing directory. -/
theorem c8_witness :
    (smUpdateEnsure false false true [] DirState.emptyDir "u" "master" false
        [⟨"origin", "u", [⟨"origin", "master", 1, []⟩]⟩]).1.take 2 =
      [EnsureAct.rmdirEmpty, EnsureAct.clone "u" true] :=
  (c8_init_clone [] DirState.emptyDir "u" "master" false
      [⟨"origin", "u", [⟨"origin", "master", 1, []⟩]⟩]).2.1 rfl

/-- C1: the claim says the engine walks the history of the renamed remote's
tracking branch FOR THE CURRENT RECORD'S BRANCH NAME and never raises,
resetting the pinned commit to that branch's tip with a warning when absent.
The code looks up `smr.refs[self.branch.name]` where `self` is the
`RootModule` whose branch is always `master`: with a record tracking `topic`
and a new remote carrying only a `topic` ref - which satisfied the earlier
availability check - the lookup raises `IndexError` instead. -/
theorem c1_url_change_walks_root_branch :
    (urlChangeStep rootModuleBranchName c1Sm c1Psm c1Rmts c1NewRefs).err =
      some Err.indexError
    ∧ (findRefByHead c1NewRefs c1Sm.branchName).isSome = true
    ∧ rootModuleBranchName ≠ c1Sm.branchName := by decide

/-- C2: the claim says a non-force removal raises
`InvalidGitRepositoryError` and deletes nothing when no single remote branch
contains every local commit.  With two remote refs whose cherry checks are
both non-empty, the code's per-ref counter is overwritten with a boolean
(never accumulated), so it can never equal `len(rrefs) = 2`: the guard does
not trip and the module working tree is deleted. -/
theorem c2_remove_deletes_despite_unpushed_commits :
    checkRemoteRaises [1, 1] = false
    ∧ (smRemove c2Tree true false false false).2 = none
    ∧ RemMut.rmtreeModule ∈ (smRemove c2Tree true false false false).1 := by
  refine ⟨rfl, ?_, ?_⟩ <;>
    simp [smRemove, removeChildren, c2Tree, c2Env, nonForceChecks,
      checkRemotes, checkRemoteRaises, configAssemble]

/-- C4: a submodule present in both snapshots with identical path, url and
branch name triggers no move, no remote operation and no branch operation in
the reconciliation pass, whatever the module state and oracles. -/
theorem c4_unchanged_pair_is_noop (psm sm : Submodule) (pme sme : Bool)
    (rmts rmts2 : List Remote) (newRefs : List RemoteRef) (cs : Option Nat)
    (cherry : String → String → Nat) (hp : sm.path = psm.path)
    (hu : sm.url = psm.url) (hb : sm.branchName = psm.branchName) :
    (reconcilePair psm sm pme sme rmts newRefs rmts2 cs cherry).ops = []
    ∧ (reconcilePair psm sm pme sme rmts newRefs rmts2 cs cherry).err =
        none := by
  cases sme <;> simp [reconcilePair, hp, hu, hb]

/-- Witness for C4 at two records differing only in the pinned commit. -/
theorem c4_witness :
    (reconcilePair ⟨"A", "p", "u", "b", 3⟩ ⟨"A", "p", "u", "b", 7⟩ true true
        [] [] [] none cherryZero).ops = []
    ∧ (reconcilePair ⟨"A", "p", "u", "b", 3⟩ ⟨"A", "p", "u", "b", 7⟩ true true
        [] [] [] none cherryZero).err = none :=
  c4_unchanged_pair_is_noop _ _ _ _ _ _ _ _ _ rfl rfl rfl

/-- C3 counterexample: changing branch from `old` to `new`, the old branch
contributes no commits beyond the new branch (the claim's deletion condition
holds), yet the code does not delete it: its cherry check runs against the
first remote branch named `old` - here `origin/old`, which lacks one of the
old branch's commits. -/
theorem c3_counterexample :
    cherryCex "new" "old" = 0
    ∧ Op.deleteBranch "old" ∉
        (branchChangeStep "new" "old" c3Remotes none cherryCex).1 := by decide

/-- C3 amended: on a branch change the engine creates - or, when creation
fails with status 128 because it already exists, reuses - a local branch
named after the current branch name, sets its upstream to the first remote
branch of that name (raising `InvalidGitRepositoryError` when no remote
carries such a ref, and propagating any creation failure with a status other
than 128); the previous local branch is deleted exactly when some remote
carries a ref named after the previous branch and the previous branch
contributes no commits beyond the FIRST such remote branch; failure to
resolve that remote branch is silently ignored. -/
theorem c3_branch_change_amended (smB psmB : String) (remotes : List Remote)
    (cherry : String → String → Nat) :
    (∀ s, s ≠ 128 →
      branchChangeStep smB psmB remotes (some s) cherry =
        ([], some (Err.gitCommandError s)))
    ∧ Op.createBranch smB ∈ (branchChangeStep smB psmB remotes none cherry).1
    ∧ Op.reuseBranch smB ∈
        (branchChangeStep smB psmB remotes (some 128) cherry).1
    ∧ (find_first_remote_branch remotes smB = none →
        (branchChangeStep smB psmB remotes none cherry).2 =
          some Err.invalidGitRepo)
    ∧ (∀ rref, find_first_remote_branch remotes smB = some rref →
        (branchChangeStep smB psmB remotes none cherry).2 = none
        ∧ Op.setTracking smB (refQualName rref) ∈
            (branchChangeStep smB psmB remotes none cherry).1
        ∧ Op.setTracking smB (refQualName rref) ∈
            (branchChangeStep smB psmB remotes (some 128) cherry).1
        ∧ (Op.deleteBranch psmB ∈
              (branchChangeStep smB psmB remotes none cherry).1
            ↔ ∃ tbr, find_first_remote_branch remotes psmB = some tbr
                ∧ cherry (refQualName tbr) psmB = 0)) := by
  refine ⟨?_, ?_, ?_, ?_, ?_⟩
  · intro s hs
    have hb : (s != 128) = true := by simpa using hs
    simp [branchChangeStep, hb]
  · cases hf : find_first_remote_branch remotes smB with
    | none => simp [branchChangeStep, hf]
    | some rref =>
      cases hf2 : find_first_remote_branch remotes psmB with
      | none => simp [branchChangeStep, hf, hf2]
      | some tbr =>
        by_cases hch : cherry (refQualName tbr) psmB = 0 <;>
          simp [branchChangeStep, hf, hf2, hch]
  · cases hf : find_first_remote_branch remotes smB with
    | none => simp [branchChangeStep, hf]
    | some rref =>
      cases hf2 : find_first_remote_branch remotes psmB with
      | none => simp [branchChangeStep, hf, hf2]
      | some tbr =>
        by_cases hch : cherry (refQualName tbr) psmB = 0 <;>
          simp [branchChangeStep, hf, hf2, hch]
  · intro hf
    simp [branchChangeStep, hf]
  · intro rref hf
    cases hf2 : find_first_remote_branch remotes psmB with
    | none => simp [branchChangeStep, hf, hf2]
    | some tbr =>
      by_cases hch : cherry (refQualName tbr) psmB = 0 <;>
        simp [branchChangeStep, hf, hf2, hch]

/-- Witness for C3's amended theorem: the new branch is set to track
`origin/new`, and with the cherry oracle reporting no unmerged commits the
old branch is deleted. -/
theorem c3_witness :
    Op.setTracking "new" (refQualName ⟨"origin", "new", 10, [9]⟩) ∈
      (branchChangeStep "new" "old" c3Remotes none cherryZero).1
    ∧ Op.deleteBranch "old" ∈
        (branchChangeStep "new" "old" c3Remotes none cherryZero).1 := by
  have h := (c3_branch_change_amended "new" "old" c3Remotes cherryZero).2.2.2.2
    ⟨"origin", "new", 10, [9]⟩ (by decide)
  exact ⟨h.2.1, h.2.2.2.mpr ⟨⟨"origin", "old", 20, [19]⟩, by decide, rfl⟩⟩

/-- C10 counterexample: with no attributes cached beforehand and a fully
readable configuration, exists() returns True and leaves `path` cached,
although the claim says attributes absent beforehand remain absent. -/
theorem c10_counterexample :
    emptyCache.path = none
    ∧ (smExists resAllOk emptyCache).1 = true
    ∧ (smExists resAllOk emptyCache).2.path = some "p" := by decide

/-- C10 amended: exists() never raises - every configuration failure is
absorbed into a False result - and it returns True exactly when the full
attribute resolution succeeds; a beforehand-cached `path` value is always
restored; when all three attributes were cached beforehand the cache is
restored exactly; attributes absent beforehand, however, may be left
populated by the probe. -/
theorem c10_exists_amended (res : CfgRes) (c : Cache) :
    (∀ v, c.path = some v → (smExists res c).2.path = some v)
    ∧ (c.path.isSome = true → c.url.isSome = true → c.branch.isSome = true →
        (smExists res c).2 = c)
    ∧ ((smExists res c).1 =
        (res.readerOk && res.pathVal.isSome && res.urlVal.isSome &&
          res.branchVal.isSome)) := by
  obtain ⟨r0, r1, r2, r3⟩ := res
  obtain ⟨cp, cu, cb⟩ := c
  cases r0 <;> cases r1 <;> cases r2 <;> cases r3 <;>
    cases cp <;> cases cu <;> cases cb <;>
    simp_all [smExists, hasattrLazyPath, hasattrLazyUrl, hasattrLazyBranch,
      set_cache_triple]

/-- Witness for C10's amended theorem: a fully cached instance is restored
exactly. -/
theorem c10_witness : (smExists resAllOk fullCache).2 = fullCache :=
  (c10_exists_amended resAllOk fullCache).2.1 rfl rfl rfl

/-- The `try` block of `Submodule.move` performs only index-entry and config
writes: it never performs a physical module rename. -/
theorem moveTryBody_no_rename (origPath mp : String) (cfg : Bool)
    (env : MoveEnv) (p q : String) :
    MvAct.renameModule p q ∉ (moveTryBody origPath mp cfg env).acts := by
  cases cfg <;> cases h1 : env.indexHasCurEntry <;>
    cases h2 : env.configWriteFails <;> simp [moveTryBody, h1, h2]

/-- C7: if a move's physical directory rename has succeeded and the
subsequent index-entry or configuration update raises, the physical move is
undone - the module directory is renamed back to its original location - and
it is there when the exception propagates to the caller. -/
theorem c7_move_compensation (origPath mpr : String) (cfg mdl : Bool)
    (env : MoveEnv)
    (hren : MvAct.renameModule origPath (stripTrailingSlash mpr) ∈
      (smMove origPath mpr cfg mdl env).acts)
    (herr : (smMove origPath mpr cfg mdl env).err.isSome = true) :
    (smMove origPath mpr cfg mdl env).physPath = some origPath
    ∧ MvAct.renameBack (stripTrailingSlash mpr) origPath ∈
        (smMove origPath mpr cfg mdl env).acts := by
  revert hren herr
  by_cases h1 : (!mdl && !cfg) = true
  · simp [smMove, h1]
  by_cases h2 : (stripTrailingSlash mpr == origPath) = true
  · simp [smMove, h1, h2]
  by_cases h3 : env.destIsFile = true
  · simp [smMove, h1, h2, h3]
  by_cases h4 : (cfg && env.indexHasDestEntry) = true
  · simp [smMove, h1, h2, h3, h4]
  by_cases h5 : (mdl && env.destExists && env.destNonEmpty) = true
  · simp [smMove, h1, h2, h3, h4, h5]
  cases hb : (moveTryBody origPath (stripTrailingSlash mpr) cfg env).err with
  | none => simp [smMove, h1, h2, h3, h4, h5, hb]
  | some e =>
    by_cases hR : (mdl && env.curExists) = true
    · simp [smMove, h1, h2, h3, h4, h5, hb, hR]
    · intro hren herr
      exfalso
      revert hren
      by_cases hA : (mdl && env.destExists) = true
      · have hN : env.destNonEmpty = false := by revert h5; simp [hA]
        cases hL : env.destIsLink <;>
          simp [smMove, h1, h2, h3, h4, h5, hb, hR, hA, hL, hN,
            moveTryBody_no_rename origPath (stripTrailingSlash mpr) cfg env]
      · simp [smMove, h1, h2, h3, h4, h5, hb, hR, hA,
          moveTryBody_no_rename origPath (stripTrailingSlash mpr) cfg env]

/-- Witness for C7: a failing configuration write after a successful rename
leaves the module back at its original path. -/
theorem c7_witness :
    (smMove "a" "b" true true
        ⟨false, false, false, false, true, false, true, true⟩).physPath =
      some "a"
    ∧ MvAct.renameBack (stripTrailingSlash "b") "a" ∈
        (smMove "a" "b" true true
          ⟨false, false, false, false, true, false, true, true⟩).acts :=
  c7_move_compensation "a" "b" true true
    ⟨false, false, false, false, true, false, true, true⟩ (by decide)
    (by decide)

theorem forcePhase_dry (env : RemoveEnv) (hwf : envWf env = true)
    (hm : env.moduleExistsB = true) :
    (forcePhase env true).1 = []
    ∧ (forcePhase env true).2 = (forcePhase env false).2 := by
  obtain ⟨e1, e2, e3, e4, e5, e6, e7⟩ := env
  cases e4 <;> cases e5 <;> simp_all [envWf, forcePhase]

theorem configAssemble_dry (env : RemoveEnv) (cfg : Bool)
    (mp1 mp2 : List RemMut × Option Err) (h1 : mp1.1 = [])
    (h2 : mp1.2 = mp2.2) :
    (configAssemble env cfg true mp1).1 = []
    ∧ (configAssemble env cfg true mp1).2 =
        (configAssemble env cfg false mp2).2 := by
  obtain ⟨l1, o1⟩ := mp1
  obtain ⟨l2, o2⟩ := mp2
  simp only at h1 h2
  subst h1
  subst h2
  cases o1 <;> cases cfg <;> simp [configAssemble]

theorem remove_dry_aux : ∀ n : Nat,
    (∀ t, sizeOf t < n → treeWf t = true → ∀ m f c,
      (smRemove t m f c true).1 = []
      ∧ (smRemove t m f c true).2 = (smRemove t m f c false).2)
    ∧ (∀ cs : List SMTree, sizeOf cs < n → forestWf cs = true →
      (removeChildren cs true).1 = []
      ∧ (removeChildren cs true).2 = (removeChildren cs false).2) := by
  intro n
  induction n with
  | zero =>
    exact ⟨fun t hsz => absurd hsz (Nat.not_lt_zero _),
      fun cs hsz => absurd hsz (Nat.not_lt_zero _)⟩
  | succ n ih =>
    obtain ⟨ihT, ihL⟩ := ih
    constructor
    · intro t hsz hwf m f c
      obtain ⟨env, children⟩ := t
      have hspec := SMTree.node.sizeOf_spec env children
      have hszc : sizeOf children < n := by omega
      have hwf2 : envWf env = true ∧ forestWf children = true := by
        have := hwf
        rw [treeWf] at this
        simpa using this
      have hch := ihL children hszc hwf2.2
      simp only [smRemove]
      by_cases h0 : (!m && !c) = true
      · simp [h0]
      rw [if_neg h0, if_neg h0]
      by_cases h1 : (m && env.moduleExistsB) = true
      · rw [if_pos h1, if_pos h1]
        by_cases h2 : f = true
        · rw [if_pos h2, if_pos h2]
          have hme : env.moduleExistsB = true := by
            have h := h1
            simp at h
            exact h.2
          have hf := forcePhase_dry env hwf2.1 hme
          exact configAssemble_dry env c _ _ hf.1 hf.2
        · rw [if_neg h2, if_neg h2]
          cases hnc : nonForceChecks env with
          | some e =>
            simp only [hnc]
            exact configAssemble_dry env c _ _ rfl rfl
          | none =>
            simp only [hnc]
            cases hcr : (removeChildren children true).2 with
            | some e =>
              have hre : (removeChildren children false).2 = some e :=
                hch.2.symm.trans hcr
              simp only [hcr, hre]
              exact configAssemble_dry env c _ _ hch.1 rfl
            | none =>
              have hre : (removeChildren children false).2 = none :=
                hch.2.symm.trans hcr
              simp only [hcr, hre]
              exact configAssemble_dry env c _ _ (by simp [hch.1]) rfl
      · rw [if_neg h1, if_neg h1]
        exact configAssemble_dry env c _ _ rfl rfl
    · intro cs hsz hfor
      cases cs with
      | nil => simp [removeChildren]
      | cons a l =>
        have hspec := List.cons.sizeOf_spec a l
        have hsza : sizeOf a < n := by omega
        have hszl : sizeOf l < n := by omega
        have hfa : treeWf a = true ∧ forestWf l = true := by
          have := hfor
          rw [forestWf] at this
          simpa using this
        have ha := ihT a hsza hfa.1 true false false
        have hl := ihL l hszl hfa.2
        simp only [removeChildren]
        cases hra : (smRemove a true false false true).2 with
        | some e =>
          have hre : (smRemove a true false false false).2 = some e :=
            ha.2.symm.trans hra
          simp [hra, hre, ha.1]
        | none =>
          have hre : (smRemove a true false false false).2 = none :=
            ha.2.symm.trans hra
          simp [hra, hre, ha.1, hl.1, hl.2]

theorem c9_dry_run_is_pure (t : SMTree) (module force configuration : Bool)
    (h : treeWf t = true) :
    (smRemove t module force configuration true).1 = []
    ∧ (smRemove t module force configuration true).2 =
        (smRemove t module force configuration false).2 :=
  ((remove_dry_aux (sizeOf t + 1)).1 t (Nat.lt_succ_self _) h)
    module force configuration

theorem c9_witness :
    (smRemove c9Tree true false true true).1 = []
    ∧ (smRemove c9Tree true false true true).2 =
        (smRemove c9Tree true false true false).2 :=
  c9_dry_run_is_pure c9Tree true false true
    (by simp [c9Tree, c9Env, treeWf, forestWf, envWf])

end GitSubmodule
